import Mathlib

/-!
Verification of the tick-data-provider logic of `src/main.js`
(`ExampleTickDataProvider` and the snapshot construction in `fetchPoolData`).

JavaScript numbers that hold tick coordinates and liquidity values are modelled
as `Int`; a JS object field that may be absent is an `Option`; a JS object used
as a map from tick to record is an association list `List (Int × StoredTickInfo)`.
The `async` qualifiers on the methods are interface artifacts: the bodies are
pure, so they are embedded as pure functions (plus explicit-state variants for
the mutation-freedom claim).
-/

set_option linter.unusedVariables false

namespace UniswapExample

/-- The fully populated per-tick record that `getTick` returns
(`{liquidityNet, liquidityGross}` in `src/main.js`, lines 12-15).
Values such as the JS strings `'1000'`/`'-1000'` are modelled numerically. -/
structure TickInfo where
  liquidityNet : Int
  liquidityGross : Int
deriving DecidableEq, Repr

/-- A per-tick record as stored in a snapshot.  A JS snapshot record may lack
either field (the records built by `fetchPoolData` carry only `liquidityNet`),
so both fields are `Option`s; `none` models an absent (`undefined`) field.
A numeric `0` field is JS-falsy and is treated by `getTick` exactly like an
absent field, which coincides with `Option.getD 0` numerically. -/
structure StoredTickInfo where
  liquidityNet : Option Int
  liquidityGross : Option Int
deriving DecidableEq, Repr

/-- A snapshot: the JS object mapping tick coordinates to stored records
(`this.ticks`). -/
abbrev TickMap := List (Int × StoredTickInfo)

/-- Key lookup in a snapshot: `this.ticks[tick]`, `undefined` when absent. -/
def lookupTick : TickMap → Int → Option StoredTickInfo
  | [], _ => none
  | (k, v) :: rest, t => if k = t then some v else lookupTick rest t

/-- The provider object: the constructor (`src/main.js` lines 7-9) stores the
snapshot in the single field `ticks` and does nothing else. -/
structure ExampleTickDataProvider where
  ticks : TickMap
deriving DecidableEq, Repr

/-- The error kind the specification assigns to snapshot validation. -/
inductive ValidationError where
  | invalidSnapshot : ValidationError
deriving DecidableEq, Repr

/-- Embeds the constructor `constructor(ticks) { this.ticks = ticks }`
(`src/main.js` lines 7-9).  The result type is `Except ValidationError _` so
that the possibility of a thrown `ValidationError` is expressible; the source
body performs no check and never throws, so every snapshot is accepted. -/
def mkExampleTickDataProvider (ticks : TickMap) :
    Except ValidationError ExampleTickDataProvider :=
  Except.ok ⟨ticks⟩

/-- `getTick` (`src/main.js` lines 11-16):
`{ liquidityNet: this.ticks[tick]?.liquidityNet || '0',
   liquidityGross: this.ticks[tick]?.liquidityGross || '0' }`.
The optional chaining is `Option.bind`; the `|| '0'` fallback on an
absent/falsy field is `Option.getD 0`. -/
def getTick (p : ExampleTickDataProvider) (tick : Int) : TickInfo :=
  { liquidityNet := ((lookupTick p.ticks tick).bind (fun r => r.liquidityNet)).getD 0
    liquidityGross := ((lookupTick p.ticks tick).bind (fun r => r.liquidityGross)).getD 0 }

/-- `TickMath.MIN_TICK` of the imported `@uniswap/v3-sdk`. -/
def MIN_TICK : Int := -887272

/-- `TickMath.MAX_TICK` of the imported `@uniswap/v3-sdk`. -/
def MAX_TICK : Int := 887272

/-- Fuel bound for the scan loop: strictly more than the number of integer
coordinates in `[MIN_TICK, MAX_TICK]`, so with any step of magnitude at least
one the loop leaves the range before the fuel runs out. -/
def FUEL : Nat := 1774546

/-- The `while` loop of `nextInitializedTickWithinOneWord`
(`src/main.js` lines 23-28), one fuel unit per iteration.
`some (some t)` models `return [nextTick, true]` at a found tick,
`some none` models falling out of the loop (candidate left the range), and
`none` models running out of fuel, which on the source side is an execution
that is still looping (possible only for `step = 0`, where the candidate never
moves). -/
def nextInitializedAux (m : TickMap) (step : Int) : Nat → Int → Option (Option Int)
  | 0, _ => none
  | fuel + 1, nt =>
    if MIN_TICK ≤ nt ∧ nt ≤ MAX_TICK then
      if (lookupTick m nt).isSome then some (some nt)
      else nextInitializedAux m step fuel (nt + step)
    else some none

/-- `nextInitializedTickWithinOneWord(tick, zeroForOne, tickSpacing)`
(`src/main.js` lines 18-31): `step = zeroForOne ? -tickSpacing : tickSpacing`,
the candidate starts at `tick + step`, the loop scans while the candidate is
inside `[MIN_TICK, MAX_TICK]`, and on exhaustion the boundary for the
direction is returned with `false`.  The outer `Option` is `none` exactly when
the loop never terminates (fuel exhaustion, step `0`). -/
def nextInitializedTickWithinOneWord (p : ExampleTickDataProvider) (tick : Int)
    (zeroForOne : Bool) (tickSpacing : Int) : Option (Int × Bool) :=
  let step := if zeroForOne then -tickSpacing else tickSpacing
  match nextInitializedAux p.ticks step FUEL (tick + step) with
  | some (some t) => some (t, true)
  | some none => some ((if zeroForOne then MIN_TICK else MAX_TICK), false)
  | none => none

/-- `getTick` with the object state passed explicitly: the method body reads
`this.ticks` and assigns nothing, so the post-state is the pre-state. -/
def getTickRun (p : ExampleTickDataProvider) (tick : Int) :
    TickInfo × ExampleTickDataProvider :=
  (getTick p tick, p)

/-- `nextInitializedTickWithinOneWord` with the object state passed
explicitly: the method body reads `this.ticks` and assigns nothing. -/
def nextInitializedRun (p : ExampleTickDataProvider) (tick : Int)
    (zeroForOne : Bool) (tickSpacing : Int) :
    Option (Int × Bool) × ExampleTickDataProvider :=
  (nextInitializedTickWithinOneWord p tick zeroForOne tickSpacing, p)

/-- The concrete scenario of the specification (mirroring the commented
example pool of `src/main.js`): spacing `60`, initialized ticks `-120` and
`60`. -/
def exampleProvider : ExampleTickDataProvider :=
  ⟨[(-120, ⟨some 1000, some 1000⟩), (60, ⟨some (-1000), some 1000⟩)]⟩

/-- A provider whose only initialized tick sits exactly at `MIN_TICK`. -/
def minTickProvider : ExampleTickDataProvider :=
  ⟨[(-887272, ⟨some 1, some 1⟩)]⟩

/-- The empty provider. -/
def emptyProvider : ExampleTickDataProvider := ⟨[]⟩

/-- The per-tick data the RPC call `pool.ticks(tick)` yields as used by
`fetchPoolData` (`src/main.js` lines 111-115): only `liquidityNet` and the
`initialized` flag are retained there. -/
structure ChainTickData where
  liquidityNet : Int
  initialized : Bool
deriving DecidableEq, Repr

/-- The on-chain state as seen through `pool.ticks`, with `none` for a failed
fetch (the `.catch(() => null)` of `src/main.js` line 115). -/
abbrev Chain := Int → Option ChainTickData

/-- The fetch loop of `fetchPoolData` (`src/main.js` lines 109-117):
`for (let tick = startTick; tick <= endTick; tick += tickSpacing)`, one fuel
unit per iteration.  The fuel `(endTick + 1 - startTick).toNat` supplied in
`fetchPoolDataTicks` is enough for every positive spacing, where the source
loop advances by at least one per iteration; a non-positive spacing makes the
source loop run forever whenever `startTick ≤ endTick`. -/
def fetchLoopAux (chain : Chain) (tickSpacing e : Int) :
    Nat → Int → List (Int × Option ChainTickData)
  | 0, _ => []
  | fuel + 1, t =>
    if t ≤ e then
      (t, chain t) :: fetchLoopAux chain tickSpacing e fuel (t + tickSpacing)
    else []

/-- `Math.floor(currentTick / tickSpacing) * tickSpacing` (`src/main.js`
lines 102-103); JS float division followed by `Math.floor` on integer inputs
is floor division. -/
def alignedBase (currentTick tickSpacing : Int) : Int :=
  Int.fdiv currentTick tickSpacing * tickSpacing

/-- `startTick` of `fetchPoolData` (`src/main.js` line 102). -/
def startTick (currentTick tickSpacing tickRange : Int) : Int :=
  alignedBase currentTick tickSpacing - tickRange * tickSpacing

/-- `endTick` of `fetchPoolData` (`src/main.js` line 103). -/
def endTick (currentTick tickSpacing tickRange : Int) : Int :=
  alignedBase currentTick tickSpacing + tickRange * tickSpacing

/-- One step of the accumulation loop of `fetchPoolData` (`src/main.js`
lines 122-128): a successfully fetched, initialized tick is appended with a
record holding only a `liquidityNet` field; everything else is skipped. -/
def accInitialized (acc : TickMap) (tr : Int × Option ChainTickData) : TickMap :=
  match tr.2 with
  | some d =>
    if d.initialized then acc ++ [(tr.1, ⟨some d.liquidityNet, none⟩)] else acc
  | none => acc

/-- The `initializedTicks` object built by `fetchPoolData` (`src/main.js`
lines 120-128). -/
def initializedTicksOf (results : List (Int × Option ChainTickData)) : TickMap :=
  results.foldl accInitialized []

/-- The `ticks` snapshot `fetchPoolData` returns (`src/main.js`
lines 102-137), as a function of the chain state and its scalar inputs. -/
def fetchPoolDataTicks (chain : Chain) (currentTick tickSpacing tickRange : Int) :
    TickMap :=
  initializedTicksOf
    (fetchLoopAux chain tickSpacing (endTick currentTick tickSpacing tickRange)
      ((endTick currentTick tickSpacing tickRange + 1 -
        startTick currentTick tickSpacing tickRange).toNat)
      (startTick currentTick tickSpacing tickRange))

/-- A chain state with a single initialized tick at `60`, for concrete
instantiations. -/
def chainEx : Chain := fun t => if t = 60 then some ⟨5, true⟩ else none

/-! ### Helper lemmas about the scan loop -/

theorem aux_succ (m : TickMap) (step : Int) (fuel : Nat) (nt : Int) :
    nextInitializedAux m step (fuel + 1) nt =
      if MIN_TICK ≤ nt ∧ nt ≤ MAX_TICK then
        if (lookupTick m nt).isSome then some (some nt)
        else nextInitializedAux m step fuel (nt + step)
      else some none := rfl

theorem aux_out_of_range (m : TickMap) (step : Int) (fuel : Nat) (nt : Int)
    (hf : fuel ≠ 0) (hout : ¬(MIN_TICK ≤ nt ∧ nt ≤ MAX_TICK)) :
    nextInitializedAux m step fuel nt = some none := by
  cases fuel with
  | zero => exact absurd rfl hf
  | succ n => rw [aux_succ, if_neg hout]

theorem aux_ne_none_pos (m : TickMap) (step : Int) (hstep : 1 ≤ step) :
    ∀ fuel nt, (MAX_TICK + 1 - nt).toNat < fuel →
      nextInitializedAux m step fuel nt ≠ none := by
  intro fuel
  induction fuel with
  | zero => intro nt h; omega
  | succ n ih =>
    intro nt h
    rw [aux_succ]
    by_cases hin : MIN_TICK ≤ nt ∧ nt ≤ MAX_TICK
    · rw [if_pos hin]
      by_cases hl : (lookupTick m nt).isSome = true
      · rw [if_pos hl]; simp
      · rw [if_neg hl]
        exact ih (nt + step) (by omega)
    · rw [if_neg hin]; simp

theorem aux_ne_none_neg (m : TickMap) (step : Int) (hstep : step ≤ -1) :
    ∀ fuel nt, (nt + 1 - MIN_TICK).toNat < fuel →
      nextInitializedAux m step fuel nt ≠ none := by
  intro fuel
  induction fuel with
  | zero => intro nt h; omega
  | succ n ih =>
    intro nt h
    rw [aux_succ]
    by_cases hin : MIN_TICK ≤ nt ∧ nt ≤ MAX_TICK
    · rw [if_pos hin]
      by_cases hl : (lookupTick m nt).isSome = true
      · rw [if_pos hl]; simp
      · rw [if_neg hl]
        exact ih (nt + step) (by omega)
    · rw [if_neg hin]; simp

theorem aux_finds_pos (m : TickMap) (step : Int) (hstep : 1 ≤ step) (target : Int)
    (htl : (lookupTick m target).isSome = true) (htmax : target ≤ MAX_TICK) :
    ∀ fuel nt, MIN_TICK ≤ nt → nt ≤ target → step ∣ (target - nt) →
      (∀ j, nt ≤ j → j < target → lookupTick m j = none) →
      (target - nt).toNat < fuel →
      nextInitializedAux m step fuel nt = some (some target) := by
  intro fuel
  induction fuel with
  | zero => intro nt _ _ _ _ h; omega
  | succ n ih =>
    intro nt hmin hle hdvd hmid hfuel
    rw [aux_succ, if_pos ⟨hmin, le_trans hle htmax⟩]
    by_cases hl : (lookupTick m nt).isSome = true
    · rw [if_pos hl]
      have hnt : nt = target := by
        by_contra hne
        have hlt : nt < target := lt_of_le_of_ne hle hne
        have h0 := hmid nt le_rfl hlt
        rw [h0] at hl; simp at hl
      rw [hnt]
    · rw [if_neg hl]
      have hne : nt ≠ target := by
        intro he; rw [he] at hl; exact hl htl
      have hlt : nt < target := lt_of_le_of_ne hle hne
      have hstep_le : step ≤ target - nt := Int.le_of_dvd (by omega) hdvd
      apply ih (nt + step) (by omega) (by omega)
      · have heq : target - (nt + step) = (target - nt) - step := by ring
        rw [heq]; exact dvd_sub hdvd dvd_rfl
      · intro j hj1 hj2; exact hmid j (by omega) hj2
      · omega

theorem aux_finds_neg (m : TickMap) (step : Int) (hstep : step ≤ -1) (target : Int)
    (htl : (lookupTick m target).isSome = true) (htmin : MIN_TICK ≤ target) :
    ∀ fuel nt, nt ≤ MAX_TICK → target ≤ nt → step ∣ (target - nt) →
      (∀ j, target < j → j ≤ nt → lookupTick m j = none) →
      (nt - target).toNat < fuel →
      nextInitializedAux m step fuel nt = some (some target) := by
  intro fuel
  induction fuel with
  | zero => intro nt _ _ _ _ h; omega
  | succ n ih =>
    intro nt hmax hle hdvd hmid hfuel
    rw [aux_succ, if_pos ⟨le_trans htmin hle, hmax⟩]
    by_cases hl : (lookupTick m nt).isSome = true
    · rw [if_pos hl]
      have hnt : nt = target := by
        by_contra hne
        have hlt : target < nt := lt_of_le_of_ne hle (fun h => hne h.symm)
        have h0 := hmid nt hlt le_rfl
        rw [h0] at hl; simp at hl
      rw [hnt]
    · rw [if_neg hl]
      have hne : nt ≠ target := by
        intro he; rw [he] at hl; exact hl htl
      have hlt : target < nt := lt_of_le_of_ne hle (fun h => hne h.symm)
      have hstep_le : (-step) ≤ nt - target := Int.le_of_dvd (by omega) (by
        have : (-step) ∣ (target - nt) := (Int.neg_dvd).mpr hdvd
        have h2 : nt - target = -(target - nt) := by ring
        rw [h2]; exact dvd_neg.mpr this)
      apply ih (nt + step) (by omega) (by omega)
      · have heq : target - (nt + step) = (target - nt) - step := by ring
        rw [heq]; exact dvd_sub hdvd dvd_rfl
      · intro j hj1 hj2; exact hmid j hj1 (by omega)
      · omega

theorem aux_exhausts_pos (m : TickMap) (step : Int) (hstep : 1 ≤ step) :
    ∀ fuel nt, (∀ j, nt ≤ j → lookupTick m j = none) →
      (MAX_TICK + 1 - nt).toNat < fuel →
      nextInitializedAux m step fuel nt = some none := by
  intro fuel
  induction fuel with
  | zero => intro nt _ h; omega
  | succ n ih =>
    intro nt hnone hfuel
    rw [aux_succ]
    by_cases hin : MIN_TICK ≤ nt ∧ nt ≤ MAX_TICK
    · rw [if_pos hin]
      have h0 : lookupTick m nt = none := hnone nt le_rfl
      rw [h0, if_neg (by simp)]
      exact ih (nt + step) (fun j hj => hnone j (by omega)) (by omega)
    · rw [if_neg hin]

theorem aux_exhausts_neg (m : TickMap) (step : Int) (hstep : step ≤ -1) :
    ∀ fuel nt, (∀ j, j ≤ nt → lookupTick m j = none) →
      (nt + 1 - MIN_TICK).toNat < fuel →
      nextInitializedAux m step fuel nt = some none := by
  intro fuel
  induction fuel with
  | zero => intro nt _ h; omega
  | succ n ih =>
    intro nt hnone hfuel
    rw [aux_succ]
    by_cases hin : MIN_TICK ≤ nt ∧ nt ≤ MAX_TICK
    · rw [if_pos hin]
      have h0 : lookupTick m nt = none := hnone nt le_rfl
      rw [h0, if_neg (by simp)]
      exact ih (nt + step) (fun j hj => hnone j (by omega)) (by omega)
    · rw [if_neg hin]

theorem aux_found_ge_pos (m : TickMap) (step : Int) (hstep : 1 ≤ step) :
    ∀ fuel nt u, nextInitializedAux m step fuel nt = some (some u) → nt ≤ u := by
  intro fuel
  induction fuel with
  | zero => intro nt u h; simp [nextInitializedAux] at h
  | succ n ih =>
    intro nt u h
    rw [aux_succ] at h
    by_cases hin : MIN_TICK ≤ nt ∧ nt ≤ MAX_TICK
    · rw [if_pos hin] at h
      by_cases hl : (lookupTick m nt).isSome = true
      · rw [if_pos hl] at h
        have : nt = u := by simpa using h
        omega
      · rw [if_neg hl] at h
        have := ih (nt + step) u h
        omega
    · rw [if_neg hin] at h; simp at h

theorem aux_found_le_neg (m : TickMap) (step : Int) (hstep : step ≤ -1) :
    ∀ fuel nt u, nextInitializedAux m step fuel nt = some (some u) → u ≤ nt := by
  intro fuel
  induction fuel with
  | zero => intro nt u h; simp [nextInitializedAux] at h
  | succ n ih =>
    intro nt u h
    rw [aux_succ] at h
    by_cases hin : MIN_TICK ≤ nt ∧ nt ≤ MAX_TICK
    · rw [if_pos hin] at h
      by_cases hl : (lookupTick m nt).isSome = true
      · rw [if_pos hl] at h
        have : nt = u := by simpa using h
        omega
      · rw [if_neg hl] at h
        have := ih (nt + step) u h
        omega
    · rw [if_neg hin] at h; simp at h

theorem next_def (p : ExampleTickDataProvider) (tick : Int) (zeroForOne : Bool)
    (tickSpacing : Int) :
    nextInitializedTickWithinOneWord p tick zeroForOne tickSpacing =
      match nextInitializedAux p.ticks (if zeroForOne then -tickSpacing else tickSpacing)
          FUEL (tick + (if zeroForOne then -tickSpacing else tickSpacing)) with
      | some (some t) => some (t, true)
      | some none => some ((if zeroForOne then MIN_TICK else MAX_TICK), false)
      | none => none := rfl

theorem next_eq_found (p : ExampleTickDataProvider) (tick : Int) (zfo : Bool)
    (s u : Int)
    (h : nextInitializedAux p.ticks (if zfo then -s else s) FUEL
        (tick + (if zfo then -s else s)) = some (some u)) :
    nextInitializedTickWithinOneWord p tick zfo s = some (u, true) := by
  rw [next_def, h]

theorem next_eq_exhaust (p : ExampleTickDataProvider) (tick : Int) (zfo : Bool)
    (s : Int)
    (h : nextInitializedAux p.ticks (if zfo then -s else s) FUEL
        (tick + (if zfo then -s else s)) = some none) :
    nextInitializedTickWithinOneWord p tick zfo s =
      some ((if zfo then MIN_TICK else MAX_TICK), false) := by
  rw [next_def, h]

theorem found_of_next_true (p : ExampleTickDataProvider) (tick : Int) (zfo : Bool)
    (s u : Int)
    (h : nextInitializedTickWithinOneWord p tick zfo s = some (u, true)) :
    nextInitializedAux p.ticks (if zfo then -s else s) FUEL
      (tick + (if zfo then -s else s)) = some (some u) := by
  rw [next_def] at h
  split at h
  · rename_i v heq
    simp only [Option.some.injEq, Prod.mk.injEq] at h
    rw [h.1] at heq; exact heq
  · rename_i heq
    simp at h
  · rename_i heq
    simp at h

theorem aux_FUEL_ne_none_pos (m : TickMap) (step nt : Int) (hstep : 1 ≤ step) :
    nextInitializedAux m step FUEL nt ≠ none := by
  by_cases hin : MIN_TICK ≤ nt ∧ nt ≤ MAX_TICK
  · apply aux_ne_none_pos m step hstep FUEL nt
    have h1 : MIN_TICK = -887272 := rfl
    have h2 : MAX_TICK = 887272 := rfl
    have h3 : FUEL = 1774546 := rfl
    omega
  · rw [aux_out_of_range m step FUEL nt (by decide) hin]; simp

theorem aux_FUEL_ne_none_neg (m : TickMap) (step nt : Int) (hstep : step ≤ -1) :
    nextInitializedAux m step FUEL nt ≠ none := by
  by_cases hin : MIN_TICK ≤ nt ∧ nt ≤ MAX_TICK
  · apply aux_ne_none_neg m step hstep FUEL nt
    have h1 : MIN_TICK = -887272 := rfl
    have h2 : MAX_TICK = 887272 := rfl
    have h3 : FUEL = 1774546 := rfl
    omega
  · rw [aux_out_of_range m step FUEL nt (by decide) hin]; simp

theorem next_isSome (p : ExampleTickDataProvider) (t : Int) (zfo : Bool) (s : Int)
    (hs : 1 ≤ s) :
    (nextInitializedTickWithinOneWord p t zfo s).isSome = true := by
  have hne : nextInitializedAux p.ticks (if zfo then -s else s) FUEL
      (t + (if zfo then -s else s)) ≠ none := by
    cases zfo
    · simpa using aux_FUEL_ne_none_pos p.ticks s (t + s) hs
    · simpa using aux_FUEL_ne_none_neg p.ticks (-s) (t + -s) (by omega)
  rw [next_def]
  split
  · simp
  · simp
  · rename_i heq; exact absurd heq hne

theorem aux_zero_step_stuck : ∀ fuel, nextInitializedAux ([] : TickMap) 0 fuel 0 = none := by
  intro fuel
  induction fuel with
  | zero => rfl
  | succ n ih =>
    rw [aux_succ, if_pos (by decide)]
    rw [show (lookupTick ([] : TickMap) 0) = none from rfl]
    rw [if_neg (by simp)]
    simpa using ih

/-! ### Claims -/

/-- Claim C1: for adjacent initialized ticks `t1 < t2` of an index whose keys
are multiples of a positive `tickSpacing` and valid coordinates,
`nextInitializedTickWithinOneWord(t1, awayFromZero, tickSpacing)` returns
`(t2, true)` and `nextInitializedTickWithinOneWord(t2, towardZero, tickSpacing)`
returns `(t1, true)` (`awayFromZero` is `zeroForOne = false`, `towardZero` is
`zeroForOne = true`); and in general a found result is never the start tick. -/
theorem claim_C1 (p : ExampleTickDataProvider) (s t1 t2 : Int)
    (hs : 1 ≤ s)
    (h1 : (lookupTick p.ticks t1).isSome = true)
    (h2 : (lookupTick p.ticks t2).isSome = true)
    (hlt : t1 < t2) (hd1 : s ∣ t1) (hd2 : s ∣ t2)
    (hbetween : ∀ k, t1 < k → k < t2 → lookupTick p.ticks k = none)
    (hlo : MIN_TICK ≤ t1) (hhi : t2 ≤ MAX_TICK) :
    nextInitializedTickWithinOneWord p t1 false s = some (t2, true) ∧
    nextInitializedTickWithinOneWord p t2 true s = some (t1, true) ∧
    ∀ t u : Int, ∀ zfo : Bool,
      nextInitializedTickWithinOneWord p t zfo s = some (u, true) → u ≠ t := by
  have hd21 : s ∣ (t2 - t1) := dvd_sub hd2 hd1
  have hsle : s ≤ t2 - t1 := Int.le_of_dvd (by omega) hd21
  have hminc : MIN_TICK = -887272 := rfl
  have hmaxc : MAX_TICK = 887272 := rfl
  have hfc : FUEL = 1774546 := rfl
  refine ⟨?_, ?_, ?_⟩
  · apply next_eq_found
    show nextInitializedAux p.ticks s FUEL (t1 + s) = some (some t2)
    apply aux_finds_pos p.ticks s hs t2 h2 hhi FUEL (t1 + s) (by omega) (by omega)
    · have heq : t2 - (t1 + s) = (t2 - t1) - s := by ring
      rw [heq]; exact dvd_sub hd21 dvd_rfl
    · intro j hj1 hj2; exact hbetween j (by omega) hj2
    · omega
  · apply next_eq_found
    show nextInitializedAux p.ticks (-s) FUEL (t2 + -s) = some (some t1)
    apply aux_finds_neg p.ticks (-s) (by omega) t1 h1 hlo FUEL (t2 + -s) (by omega) (by omega)
    · have heq : t1 - (t2 + -s) = -((t2 - t1) - s) := by ring
      rw [heq]
      exact (dvd_neg).mpr ((Int.neg_dvd).mpr (dvd_sub hd21 dvd_rfl))
    · intro j hj1 hj2; exact hbetween j hj1 (by omega)
    · omega
  · intro t u zfo h
    have haux := found_of_next_true p t zfo s u h
    cases zfo
    · have haux2 : nextInitializedAux p.ticks s FUEL (t + s) = some (some u) := haux
      have hge := aux_found_ge_pos p.ticks s hs FUEL (t + s) u haux2
      omega
    · have haux2 : nextInitializedAux p.ticks (-s) FUEL (t + -s) = some (some u) := haux
      have hle := aux_found_le_neg p.ticks (-s) (by omega) FUEL (t + -s) u haux2
      omega

/-- Claim C1 witness: in the concrete two-tick index, the scan from `-120`
away from zero finds `60` and the scan from `60` toward zero finds `-120`. -/
theorem claim_C1_witness :
    nextInitializedTickWithinOneWord exampleProvider (-120) false 60 = some (60, true) ∧
    nextInitializedTickWithinOneWord exampleProvider 60 true 60 = some (-120, true) := by
  have h := claim_C1 exampleProvider 60 (-120) 60 (by decide) (by decide) (by decide)
    (by decide) ⟨-2, by decide⟩ ⟨1, by decide⟩
    (fun k hk1 hk2 => by
      simp only [exampleProvider, lookupTick]
      rw [if_neg (by omega), if_neg (by omega)])
    (by decide) (by decide)
  exact ⟨h.1, h.2.1⟩

/-- Claim C2: `getTick` returns the stored record when the tick is a key with
both fields present, and the zero record when the tick is absent; it is a
total function (its Lean embedding returns a `TickInfo`, never an error). -/
theorem claim_C2 (p : ExampleTickDataProvider) (t : Int) :
    (∀ a b : Int, lookupTick p.ticks t = some ⟨some a, some b⟩ →
      getTick p t = ⟨a, b⟩) ∧
    (lookupTick p.ticks t = none → getTick p t = ⟨0, 0⟩) := by
  constructor
  · intro a b h; simp [getTick, h]
  · intro h; simp [getTick, h]

/-- Claim C2 witness: a concrete one-entry snapshot, queried at its key and at
an absent tick. -/
theorem claim_C2_witness :
    getTick ⟨[((5:Int), ⟨some 7, some 9⟩)]⟩ 5 = ⟨7, 9⟩ ∧
    getTick ⟨[((5:Int), ⟨some 7, some 9⟩)]⟩ 6 = ⟨0, 0⟩ :=
  ⟨(claim_C2 ⟨[((5:Int), ⟨some 7, some 9⟩)]⟩ 5).1 7 9 (by decide),
   (claim_C2 ⟨[((5:Int), ⟨some 7, some 9⟩)]⟩ 6).2 (by decide)⟩

/-- Claim C3: when no initialized tick lies strictly beyond an in-range start
in the requested direction, the scan returns `(MAX_TICK, false)` stepping away
from zero / higher (`zeroForOne = false`) and `(MIN_TICK, false)` stepping
toward zero / lower (`zeroForOne = true`). -/
theorem claim_C3 (p : ExampleTickDataProvider) (tick s : Int) (hs : 1 ≤ s)
    (hlo : MIN_TICK ≤ tick) (hhi : tick ≤ MAX_TICK) :
    ((∀ k, (lookupTick p.ticks k).isSome = true → k ≤ tick) →
      nextInitializedTickWithinOneWord p tick false s = some (MAX_TICK, false)) ∧
    ((∀ k, (lookupTick p.ticks k).isSome = true → tick ≤ k) →
      nextInitializedTickWithinOneWord p tick true s = some (MIN_TICK, false)) := by
  have hminc : MIN_TICK = -887272 := rfl
  have hmaxc : MAX_TICK = 887272 := rfl
  have hfc : FUEL = 1774546 := rfl
  constructor
  · intro hnone
    have haux : nextInitializedAux p.ticks s FUEL (tick + s) = some none := by
      apply aux_exhausts_pos p.ticks s hs FUEL (tick + s)
      · intro j hj
        by_cases hcase : (lookupTick p.ticks j).isSome = true
        · exact absurd (hnone j hcase) (by omega)
        · exact Option.not_isSome_iff_eq_none.mp hcase
      · omega
    exact next_eq_exhaust p tick false s haux
  · intro hnone
    have haux : nextInitializedAux p.ticks (-s) FUEL (tick + -s) = some none := by
      apply aux_exhausts_neg p.ticks (-s) (by omega) FUEL (tick + -s)
      · intro j hj
        by_cases hcase : (lookupTick p.ticks j).isSome = true
        · exact absurd (hnone j hcase) (by omega)
        · exact Option.not_isSome_iff_eq_none.mp hcase
      · omega
    exact next_eq_exhaust p tick true s haux

/-- Claim C3 witness: on the empty index both directions from `0` fall out of
the range and report the direction's boundary with `false`. -/
theorem claim_C3_witness :
    nextInitializedTickWithinOneWord emptyProvider 0 false 1 = some (MAX_TICK, false) ∧
    nextInitializedTickWithinOneWord emptyProvider 0 true 1 = some (MIN_TICK, false) := by
  have h := claim_C3 emptyProvider 0 1 (by decide) (by decide) (by decide)
  exact ⟨h.1 (fun k hk => by simp [emptyProvider, lookupTick] at hk),
         h.2 (fun k hk => by simp [emptyProvider, lookupTick] at hk)⟩

/-- Claim C4 counterexample: the constructor accepts the snapshot whose key `5`
is not a multiple of tick spacing `10` (the spacing is not even an argument of
the constructor), so no `ValidationError` is raised. -/
theorem claim_C4_counterexample :
    mkExampleTickDataProvider [((5:Int), ⟨some 1, some 1⟩)] =
      Except.ok ⟨[((5:Int), ⟨some 1, some 1⟩)]⟩ ∧
    (mkExampleTickDataProvider [((5:Int), ⟨some 1, some 1⟩)]).isOk = true :=
  ⟨rfl, rfl⟩

/-- Claim C4 (amended): construction performs no validation at all — every
snapshot, aligned or not, duplicated or not, is stored as-is and accepted. -/
theorem claim_C4 : ∀ ticks : TickMap,
    mkExampleTickDataProvider ticks = Except.ok ⟨ticks⟩ := fun _ => rfl

/-- Claim C5 counterexample: from the out-of-range start `-887273`
(one below `MIN_TICK`) stepping away from zero with spacing `1`, the scan
re-enters the valid range and returns the initialized tick `(-887272, true)`,
not a `(boundary, false)` result. -/
theorem claim_C5_counterexample :
    nextInitializedTickWithinOneWord minTickProvider (-887273) false 1 =
      some (-887272, true) ∧
    (some ((-887272:Int), true) : Option (Int × Bool)) ≠ some (MAX_TICK, false) ∧
    (some ((-887272:Int), true) : Option (Int × Bool)) ≠ some (MIN_TICK, false) :=
  ⟨by decide, by decide, by decide⟩

/-- Claim C5 (amended): with a positive spacing the function always terminates
with a result (never throws); a start below `MIN_TICK` queried toward zero, or
above `MAX_TICK` queried away from zero, yields the boundary-not-found result
regardless of the index contents.  (In the opposite direction an out-of-range
start can re-enter the range and find a tick, per the counterexample.) -/
theorem claim_C5 (p : ExampleTickDataProvider) (tick s : Int) (hs : 1 ≤ s) :
    (nextInitializedTickWithinOneWord p tick true s).isSome = true ∧
    (nextInitializedTickWithinOneWord p tick false s).isSome = true ∧
    (tick < MIN_TICK →
      nextInitializedTickWithinOneWord p tick true s = some (MIN_TICK, false)) ∧
    (MAX_TICK < tick →
      nextInitializedTickWithinOneWord p tick false s = some (MAX_TICK, false)) := by
  refine ⟨next_isSome p tick true s hs, next_isSome p tick false s hs, ?_, ?_⟩
  · intro h
    have haux : nextInitializedAux p.ticks (-s) FUEL (tick + -s) = some none := by
      apply aux_out_of_range _ _ _ _ (by decide)
      omega
    exact next_eq_exhaust p tick true s haux
  · intro h
    have haux : nextInitializedAux p.ticks s FUEL (tick + s) = some none := by
      apply aux_out_of_range _ _ _ _ (by decide)
      omega
    exact next_eq_exhaust p tick false s haux

/-- Claim C5 witness: concrete instantiation at the empty index, start one
below `MIN_TICK`, spacing `1`, direction toward zero. -/
theorem claim_C5_witness :
    (nextInitializedTickWithinOneWord emptyProvider (-887273) true 1).isSome = true ∧
    nextInitializedTickWithinOneWord emptyProvider (-887273) true 1 =
      some (MIN_TICK, false) := by
  have h := claim_C5 emptyProvider (-887273) 1 (by decide)
  exact ⟨h.1, h.2.2.1 (by decide)⟩

/-- Claim C6: the concrete scenario with spacing `60` and initialized ticks
`-120` and `60`: both directional queries from `0` and both point lookups
return exactly the specified values. -/
theorem claim_C6 :
    nextInitializedTickWithinOneWord exampleProvider 0 false 60 = some (60, true) ∧
    nextInitializedTickWithinOneWord exampleProvider 0 true 60 = some (-120, true) ∧
    getTick exampleProvider 60 = ⟨-1000, 1000⟩ ∧
    getTick exampleProvider 0 = ⟨0, 0⟩ :=
  ⟨by decide, by decide, by decide, by decide⟩

/-- Claim C7: with the object state passed explicitly, both methods leave the
state unchanged, so repeating an identical query yields an identical result. -/
theorem claim_C7 (p : ExampleTickDataProvider) (t : Int) (zfo : Bool) (s : Int) :
    (getTickRun p t).2 = p ∧
    (nextInitializedRun p t zfo s).2 = p ∧
    getTickRun ((getTickRun p t).2) t = getTickRun p t ∧
    nextInitializedRun ((nextInitializedRun p t zfo s).2) t zfo s =
      nextInitializedRun p t zfo s :=
  ⟨rfl, rfl, rfl, rfl⟩

/-- Claim C8: with a positive spacing every scan terminates with a result
(the candidate moves strictly each iteration and leaves
`[MIN_TICK, MAX_TICK]`); with spacing `0` the candidate never moves and the
loop runs forever (fuel exhaustion, the `none` result), shown at a concrete
input. -/
theorem claim_C8 (p : ExampleTickDataProvider) (t : Int) (zfo : Bool) (s : Int)
    (hs : 1 ≤ s) :
    (nextInitializedTickWithinOneWord p t zfo s).isSome = true ∧
    nextInitializedTickWithinOneWord emptyProvider 0 true 0 = none := by
  refine ⟨next_isSome p t zfo s hs, ?_⟩
  rw [next_def]
  have h : nextInitializedAux emptyProvider.ticks
      (if true then -(0:Int) else (0:Int)) FUEL
      ((0:Int) + (if true then -(0:Int) else (0:Int))) = none := by
    simpa using aux_zero_step_stuck FUEL
  rw [h]

/-- Claim C8 witness: concrete instantiation with spacing `1` at the empty
index. -/
theorem claim_C8_witness :
    (nextInitializedTickWithinOneWord emptyProvider 0 false 1).isSome = true ∧
    nextInitializedTickWithinOneWord emptyProvider 0 true 0 = none := by
  have h := claim_C8 emptyProvider 0 false 1 (by decide)
  exact ⟨h.1, h.2⟩

/-! ### Helper lemmas about the fetch loop -/

theorem fetchLoopAux_succ (chain : Chain) (s e : Int) (fuel : Nat) (t : Int) :
    fetchLoopAux chain s e (fuel + 1) t =
      if t ≤ e then (t, chain t) :: fetchLoopAux chain s e fuel (t + s)
      else [] := rfl

theorem fetchLoopAux_mem (chain : Chain) (s e : Int) (hs : 1 ≤ s) :
    ∀ (fuel : Nat) (t0 k : Int) (rd : Option ChainTickData),
      (k, rd) ∈ fetchLoopAux chain s e fuel t0 →
      t0 ≤ k ∧ k ≤ e ∧ s ∣ (k - t0) := by
  intro fuel
  induction fuel with
  | zero => intro t0 k rd h; simp [fetchLoopAux] at h
  | succ n ih =>
    intro t0 k rd h
    rw [fetchLoopAux_succ] at h
    by_cases hle : t0 ≤ e
    · rw [if_pos hle] at h
      rcases List.mem_cons.mp h with h1 | h2
      · have hk : k = t0 := by simpa using congrArg Prod.fst h1
        subst hk
        exact ⟨le_refl _, hle, by simp⟩
      · obtain ⟨ha, hb, hc⟩ := ih (t0 + s) k rd h2
        refine ⟨by omega, hb, ?_⟩
        have heq : k - t0 = (k - (t0 + s)) + s := by ring
        rw [heq]; exact dvd_add hc dvd_rfl
    · rw [if_neg hle] at h; simp at h

theorem initializedTicksOf_mem_aux :
    ∀ (results : List (Int × Option ChainTickData)) (acc : TickMap) (k : Int)
      (info : StoredTickInfo),
      (k, info) ∈ results.foldl accInitialized acc →
      (k, info) ∈ acc ∨
        ∃ d : ChainTickData, (k, some d) ∈ results ∧
          info = ⟨some d.liquidityNet, none⟩ := by
  intro results
  induction results with
  | nil => intro acc k info h; exact Or.inl h
  | cons hdp tl ih =>
    obtain ⟨t, r⟩ := hdp
    intro acc k info h
    simp only [List.foldl_cons] at h
    rcases ih _ k info h with hacc | ⟨d, hd1, hd2⟩
    · cases r with
      | none => exact Or.inl hacc
      | some d =>
        have hacc2 : (k, info) ∈
            (if d.initialized then acc ++ [(t, ⟨some d.liquidityNet, none⟩)]
             else acc) := hacc
        by_cases hinit : d.initialized = true
        · rw [if_pos hinit] at hacc2
          rcases List.mem_append.mp hacc2 with hl | hr
          · exact Or.inl hl
          · have hk : k = t ∧ info = ⟨some d.liquidityNet, none⟩ := by
              simpa [Prod.ext_iff] using hr
            refine Or.inr ⟨d, ?_, hk.2⟩
            rw [hk.1]; exact List.mem_cons_self _ _
        · rw [if_neg hinit] at hacc2; exact Or.inl hacc2
    · exact Or.inr ⟨d, List.mem_cons_of_mem _ hd1, hd2⟩

theorem lookupTick_mem : ∀ (m : TickMap) (t : Int) (r : StoredTickInfo),
    lookupTick m t = some r → (t, r) ∈ m := by
  intro m
  induction m with
  | nil => intro t r h; simp [lookupTick] at h
  | cons hdp tl ih =>
    obtain ⟨k, v⟩ := hdp
    intro t r h
    rw [show lookupTick ((k, v) :: tl) t =
        if k = t then some v else lookupTick tl t from rfl] at h
    by_cases hk : k = t
    · rw [if_pos hk] at h
      have hv : v = r := by simpa using h
      subst hk; subst hv
      exact List.mem_cons_self _ _
    · rw [if_neg hk] at h
      exact List.mem_cons_of_mem _ (ih t r h)

theorem dvd_startTick (c s r : Int) : s ∣ startTick c s r := by
  unfold startTick alignedBase
  exact dvd_sub (dvd_mul_left s (Int.fdiv c s)) (dvd_mul_left s r)

theorem fetch_records_gross_none (chain : Chain) (c s r : Int) :
    ∀ (k : Int) (info : StoredTickInfo),
      (k, info) ∈ fetchPoolDataTicks chain c s r → info.liquidityGross = none := by
  intro k info h
  simp only [fetchPoolDataTicks, initializedTicksOf] at h
  rcases initializedTicksOf_mem_aux _ _ k info h with hacc | ⟨d, _, hinfo⟩
  · simp at hacc
  · rw [hinfo]

/-- Claim C9: every snapshot produced by `fetchPoolData` stores per-tick
records that carry only `liquidityNet` (no `liquidityGross` field), so
`getTick` substitutes `0` and reports `liquidityGross = 0` for every tick,
present and initialized ones included. -/
theorem claim_C9 (chain : Chain) (c s r t : Int) :
    (getTick ⟨fetchPoolDataTicks chain c s r⟩ t).liquidityGross = 0 ∧
    (∀ (k : Int) (info : StoredTickInfo),
      (k, info) ∈ fetchPoolDataTicks chain c s r →
      info.liquidityGross = none) := by
  refine ⟨?_, fetch_records_gross_none chain c s r⟩
  cases hl : lookupTick (fetchPoolDataTicks chain c s r) t with
  | none => simp [getTick, hl]
  | some info =>
    have hg := fetch_records_gross_none chain c s r t info (lookupTick_mem _ _ _ hl)
    simp [getTick, hl, hg]

/-- Claim C9 witness: the concrete chain with one initialized tick at `60`;
its fetched snapshot reports `liquidityGross = 0` at the present tick `60`. -/
theorem claim_C9_witness :
    (getTick ⟨fetchPoolDataTicks chainEx 13 60 1⟩ 60).liquidityGross = 0 ∧
    (⟨some 5, none⟩ : StoredTickInfo).liquidityGross = none := by
  have h := claim_C9 chainEx 13 60 1 60
  exact ⟨h.1, h.2 60 ⟨some 5, none⟩ (by decide)⟩

/-- Claim C10: with a positive spacing, every key of a snapshot produced by
`fetchPoolData` is a multiple of the tick spacing and lies in the closed
interval `[startTick, endTick]`: the start is aligned by floor division and
the loop steps by the spacing. -/
theorem claim_C10 (chain : Chain) (c s r : Int) (hs : 1 ≤ s) :
    ∀ (k : Int) (info : StoredTickInfo),
      (k, info) ∈ fetchPoolDataTicks chain c s r →
      s ∣ k ∧ startTick c s r ≤ k ∧ k ≤ endTick c s r := by
  intro k info h
  simp only [fetchPoolDataTicks, initializedTicksOf] at h
  rcases initializedTicksOf_mem_aux _ _ k info h with hacc | ⟨d, hmem, _⟩
  · simp at hacc
  · obtain ⟨ha, hb, hc⟩ := fetchLoopAux_mem chain s (endTick c s r) hs _ _ k (some d) hmem
    refine ⟨?_, ha, hb⟩
    have hst : s ∣ startTick c s r := dvd_startTick c s r
    have heq : k = (k - startTick c s r) + startTick c s r := by ring
    rw [heq]; exact dvd_add hc hst

/-- Claim C10 witness: the fetched snapshot of the concrete chain has the key
`60`, which is a multiple of the spacing `60` and lies in
`[startTick, endTick]` around current tick `13`. -/
theorem claim_C10_witness :
    (60:Int) ∣ 60 ∧ startTick 13 60 1 ≤ 60 ∧ (60:Int) ≤ endTick 13 60 1 := by
  exact claim_C10 chainEx 13 60 1 (by decide) 60 ⟨some 5, none⟩ (by decide)

end UniswapExample
